import Mathlib

/-!
Verification of the Discovery-and-Cache subsystem of the nerede-yesem
repository, shallowly embedded in Lean 4.

Modelling conventions:
* JavaScript strings are lists of Unicode code points (`List Char`).
* JavaScript numbers are exact rationals (`ℚ`); timestamps are integer
  epoch milliseconds (`ℤ`).
* Floating-point library functions with no exact counterpart
  (`Math.log10`, the haversine `calculateDistance`) are abstracted as
  function parameters of the definitions that use them.
* `async` database code is modelled as explicit state passing; each
  external response (proxy API, page navigation, extraction) becomes an
  input of the function that awaits it.
-/

namespace NeredeYesem

/-! ## JS string primitives -/

/-- Whitespace test covering the characters relevant to this code base
(JS `\s` and `String.prototype.trim`). -/
def isJsWhitespace (c : Char) : Bool :=
  c = ' ' || c = '\t' || c = '\n' || c = '\r'

/-- JS `String.prototype.toLowerCase` (Unicode default case conversion),
restricted to the code points occurring in this repository's data: ASCII
and the Turkish letters Ç, Ğ, İ, Ö, Ş, Ü.  Note that U+0130 (İ) lowercases
to the two code points U+0069 U+0307 (i followed by combining dot above)
and ASCII I lowercases to plain i, exactly as in the Unicode default
(non-Turkish-locale) mapping used by JS. -/
def jsLowerChar (c : Char) : List Char :=
  if c = 'İ' then ['i', Char.ofNat 0x307]
  else if c = 'Ç' then ['ç']
  else if c = 'Ğ' then ['ğ']
  else if c = 'Ö' then ['ö']
  else if c = 'Ş' then ['ş']
  else if c = 'Ü' then ['ü']
  else [c.toLower]

def jsToLowerCase (s : List Char) : List Char :=
  s.flatMap jsLowerChar

/-- JS `String.prototype.trim`: drop leading and trailing whitespace. -/
def jsTrim (s : List Char) : List Char :=
  ((s.dropWhile isJsWhitespace).reverse.dropWhile isJsWhitespace).reverse

/-- Decimal digits of a natural number, most significant first. -/
def natChars (n : Nat) : List Char := Nat.toDigits 10 n

/-- Decimal rendering of an integer, as JS renders an integral number. -/
def intChars (r : Int) : List Char :=
  if r < 0 then '-' :: natChars r.natAbs else natChars r.natAbs

/-- Rounding step of `toFixed(4)`: the integer n minimizing the distance
of n / 10^4 to the value, ties to the larger n.  This is
⌊x * 10^4 + 1/2⌋, computed on the numerator and denominator with integer
arithmetic (`Int.ediv` by a positive divisor is floor division). -/
def roundTo4 (x : ℚ) : ℤ :=
  Int.ediv (2 * x.num * 10000 + (x.den : ℤ)) (2 * (x.den : ℤ))

/-- Digit rendering of `toFixed(4)`: integer part, '.', exactly four
fractional digits. -/
def fixedRender (n : ℤ) : List Char :=
  let m : ℕ := n.natAbs
  let digits := natChars (m / 10000) ++ '.' ::
    (List.replicate (4 - (natChars (m % 10000)).length) '0' ++ natChars (m % 10000))
  if n < 0 then '-' :: digits else digits

/-- JS `Number.prototype.toFixed(4)` on an exact rational.  The sign of a
negative value that rounds to zero is not modelled (no "-0.0000"). -/
def jsToFixed4 (x : ℚ) : List Char :=
  fixedRender (roundTo4 x)

/-! ## Cache key (src/unnamed/part_001, generateCacheKey) -/

structure CacheKey where
  foodQuery : List Char
  latitude : ℚ
  longitude : ℚ
  radiusKm : ℤ
deriving DecidableEq

/-- The normalized-input tuple built inside `generateCacheKey`:
`{ q: foodQuery.toLowerCase().trim(), lat: latitude.toFixed(4),
   lng: longitude.toFixed(4), r: radiusKm }`. -/
def normalizedInputs (p : CacheKey) : List Char × List Char × List Char × ℤ :=
  (jsTrim (jsToLowerCase p.foodQuery), jsToFixed4 p.latitude,
    jsToFixed4 p.longitude, p.radiusKm)

/-- `generateCacheKey`: the template string `q:lat:lng:r`. -/
def generateCacheKey (p : CacheKey) : List Char :=
  jsTrim (jsToLowerCase p.foodQuery) ++ ':' :: jsToFixed4 p.latitude ++
    ':' :: jsToFixed4 p.longitude ++ ':' :: intChars p.radiusKm

/-! ## Cache lookup (src/src/lib/cache/cache-service.ts, src/src/lib/config/env.ts) -/

inductive CacheStatus
  | fresh | stale | refreshing | failed
deriving DecidableEq, Repr

inductive LookupStatus
  | hit | miss | stale | expired
deriving DecidableEq, Repr

/-- One row of the searchCache table, restricted to the fields the
modelled operations read or write.  Times are epoch milliseconds. -/
structure CacheEntry where
  id : String
  status : CacheStatus
  expiresAt : ℤ
  hitCount : ℕ
  createdAt : ℤ
  lastAccessedAt : ℤ
deriving DecidableEq, Repr

/-- `cacheDuration.isExpired(expiresAt)`: `new Date() > expiresAt`. -/
def isExpired (now expiresAt : ℤ) : Bool := decide (expiresAt < now)

/-- `cacheDuration.isStale(expiresAt)`: now after `expiresAt - staleGraceMs`
and not after `expiresAt`. -/
def isStale (staleGraceMs now expiresAt : ℤ) : Bool :=
  decide (expiresAt - staleGraceMs < now) && decide (now ≤ expiresAt)

structure CacheLookupResult where
  found : Bool
  entry : Option CacheEntry
  status : LookupStatus
deriving DecidableEq, Repr

/-- `recordHit`: update access time and increment the hit count. -/
def recordHit (now : ℤ) (e : CacheEntry) : CacheEntry :=
  { e with lastAccessedAt := now, hitCount := e.hitCount + 1 }

/-- `CacheService.lookup` on the entry stored under the looked-up key
(`none` = no row).  Returns the lookup result together with the stored
entry after the call.  The returned `entry` field is the row as fetched
at the start of the call, mirroring the source, where the object returned
to the caller is read before any status/hit update is written. -/
def lookup (staleGraceMs now : ℤ) (stored : Option CacheEntry) :
    CacheLookupResult × Option CacheEntry :=
  match stored with
  | none => (⟨false, none, .miss⟩, none)
  | some e =>
    if isExpired now e.expiresAt then
      (⟨true, some e, .expired⟩, some { e with status := .stale })
    else if isStale staleGraceMs now e.expiresAt then
      (⟨true, some e, .stale⟩, some e)
    else
      (⟨true, some e, .hit⟩, some (recordHit now e))

/-- The number 41.00001 as an exact rational (4100001 / 100000), given in
reduced form so that it evaluates by kernel reduction. -/
def q41_00001 : ℚ := ⟨4100001, 100000, by decide, by decide⟩

/-- The number 29.00001 as an exact rational (2900001 / 100000). -/
def q29_00001 : ℚ := ⟨2900001, 100000, by decide, by decide⟩

/-! ## Theorems for C1 and C2 -/

/-- C1: the cache key is a pure function of the normalized inputs
(lowercased and trimmed query, latitude and longitude rendered to four
decimals, radius): inputs that normalize identically yield equal keys;
in particular `generateCacheKey {" Lahmacun ", 41.00001, 29.00001, 3}`
equals `generateCacheKey {"lahmacun", 41.0000, 29.0000, 3}`. -/
theorem cache_key_pure_function :
    (∀ p q : CacheKey, normalizedInputs p = normalizedInputs q →
      generateCacheKey p = generateCacheKey q) ∧
    generateCacheKey ⟨" Lahmacun ".data, q41_00001, q29_00001, 3⟩ =
      generateCacheKey ⟨"lahmacun".data, 41, 29, 3⟩ := by
  constructor
  · intro p q h
    simp only [normalizedInputs, Prod.mk.injEq] at h
    simp [generateCacheKey, h.1, h.2.1, h.2.2.1, h.2.2.2]
  · decide

/-- Witness for C1: the two concrete inputs of the claim normalize
identically, hence their keys are equal by the theorem. -/
theorem cache_key_pure_function_witness :
    normalizedInputs ⟨" Lahmacun ".data, q41_00001, q29_00001, 3⟩ =
      normalizedInputs ⟨"lahmacun".data, 41, 29, 3⟩ ∧
    generateCacheKey ⟨" Lahmacun ".data, q41_00001, q29_00001, 3⟩ =
      generateCacheKey ⟨"lahmacun".data, 41, 29, 3⟩ :=
  ⟨by decide, cache_key_pure_function.1 _ _ (by decide)⟩

/-- C2: a lookup whose `now` lies in the stale grace window before
`expiresAt` (strictly after `expiresAt - staleGraceMs`, not after
`expiresAt`) reports status `stale`, returns the entry, and leaves the
stored entry — in particular its `hitCount` and `lastAccessedAt` —
unchanged. -/
theorem lookup_stale_window (staleGraceMs now : ℤ) (e : CacheEntry)
    (h1 : e.expiresAt - staleGraceMs < now) (h2 : now ≤ e.expiresAt) :
    lookup staleGraceMs now (some e) = (⟨true, some e, .stale⟩, some e) := by
  have he : isExpired now e.expiresAt = false := by
    simp only [isExpired, decide_eq_false_iff_not]
    omega
  have hs : isStale staleGraceMs now e.expiresAt = true := by
    simp only [isStale, Bool.and_eq_true, decide_eq_true_iff]
    omega
  simp [lookup, he, hs]

/-- Witness for C2 at a concrete entry and instant inside the grace
window. -/
theorem lookup_stale_window_witness :
    lookup 86400000 999000000 (some ⟨"e1", .fresh, 999500000, 7, 0, 1⟩) =
      (⟨true, some ⟨"e1", .fresh, 999500000, 7, 0, 1⟩, .stale⟩,
        some ⟨"e1", .fresh, 999500000, 7, 0, 1⟩) :=
  lookup_stale_window 86400000 999000000 ⟨"e1", .fresh, 999500000, 7, 0, 1⟩
    (by decide) (by decide)

/-! ## Background jobs (src/unnamed/part_004, BackgroundJobService) -/

inductive JobType
  | refresh_cache | scrape_restaurant | cleanup_expired
deriving DecidableEq, Repr

inductive JobStatus
  | pending | running | completed | failed
deriving DecidableEq, Repr

/-- Job payload `{ type, data }`; `data` is modelled as an association
list of string keys to string values (the payloads of this service only
carry string-valued fields such as `cacheId` and `placeId`). -/
structure JobPayload where
  type : JobType
  data : List (String × String)
deriving DecidableEq, Repr

structure BackgroundJob where
  id : ℕ
  type : JobType
  payload : JobPayload
  status : JobStatus
  priority : ℤ
  attempts : ℕ
  maxAttempts : ℕ
  lastError : Option String
  scheduledAt : ℤ
  startedAt : Option ℤ
  completedAt : Option ℤ
deriving DecidableEq, Repr

/-- The backgroundJob table: rows plus the id the next insert receives. -/
structure JobStore where
  nextId : ℕ
  jobs : List BackgroundJob
deriving DecidableEq, Repr

/-- Prisma `payload.path ['data', key] equals v` on the modelled payload. -/
def payloadField (p : JobPayload) (key : String) : Option String :=
  (p.data.find? (fun kv => kv.1 = key)).map (fun kv => kv.2)

/-- `BackgroundJobService.createJob`: inserts a row with the given type,
payload data, priority and scheduledAt.  Modelled from the spec: the
prisma schema (not under src/) supplies the column defaults of the
unset fields — a new job starts `pending` with `attempts = 0`; the spec
gives the job state machine entry point as `pending` and `maxAttempts`
as a per-job field, whose schema default is taken to be 3 (the
`SCRAPE_MAX_RETRIES` default). -/
def createJob (st : JobStore) (t : JobType) (data : List (String × String))
    (priority : ℤ) (scheduledAt : ℤ) : BackgroundJob × JobStore :=
  let job : BackgroundJob :=
    { id := st.nextId, type := t, payload := ⟨t, data⟩, status := .pending,
      priority, attempts := 0, maxAttempts := 3, lastError := none,
      scheduledAt, startedAt := none, completedAt := none }
  (job, ⟨st.nextId + 1, st.jobs ++ [job]⟩)

/-- The `findFirst` filter of `scheduleRefresh`: a `refresh_cache` job in
a non-terminal status (`pending` or `running`) whose payload `cacheId`
equals the requested cache id. -/
def refreshJobMatches (cacheId : String) (j : BackgroundJob) : Bool :=
  j.type = .refresh_cache &&
    (j.status = .pending || j.status = .running) &&
    payloadField j.payload "cacheId" = some cacheId

/-- `BackgroundJobService.scheduleRefresh`: look up an existing
non-terminal refresh job for the cache id; return it unchanged if found,
otherwise create a new job. -/
def scheduleRefresh (st : JobStore) (cacheId : String) (priority : ℤ)
    (now : ℤ) : BackgroundJob × JobStore :=
  match st.jobs.find? (refreshJobMatches cacheId) with
  | some j => (j, st)
  | none => createJob st .refresh_cache [("cacheId", cacheId)] priority now

/-- Sorting predicate of `getPendingJobs`: priority descending, then
scheduledAt ascending. -/
def jobOrder (a b : BackgroundJob) : Bool :=
  decide (b.priority < a.priority) ||
    (a.priority = b.priority && decide (a.scheduledAt ≤ b.scheduledAt))

def insertSorted {α : Type} (le : α → α → Bool) (x : α) : List α → List α
  | [] => [x]
  | y :: ys => if le x y then x :: y :: ys else y :: insertSorted le x ys

/-- Stable insertion sort, modelling the engine's stable `sort`/DB
ordering. -/
def sortBy {α : Type} (le : α → α → Bool) (l : List α) : List α :=
  l.foldr (insertSorted le) []

/-- `BackgroundJobService.getPendingJobs`: pending jobs whose
`scheduledAt` has passed, ordered by priority descending then
scheduledAt ascending, limited. -/
def getPendingJobs (st : JobStore) (now : ℤ) (limit : ℕ) :
    List BackgroundJob :=
  (sortBy jobOrder
    (st.jobs.filter (fun j => j.status = .pending && decide (j.scheduledAt ≤ now)))).take limit

/-- Outcome of running a job handler: normal return, or a thrown
exception with its message. -/
inductive ExecOutcome
  | ok
  | threw (msg : String)
deriving DecidableEq, Repr

/-- Result of `processJob`: the boolean return value, whether the
handler body was reached, and the job table after the call. -/
structure ProcessResult where
  returned : Bool
  handlerRan : Bool
  store : JobStore
deriving DecidableEq, Repr

def findJob (st : JobStore) (jobId : ℕ) : Option BackgroundJob :=
  st.jobs.find? (fun j => j.id = jobId)

def updateJob (st : JobStore) (jobId : ℕ) (f : BackgroundJob → BackgroundJob) :
    JobStore :=
  ⟨st.nextId, st.jobs.map (fun j => if j.id = jobId then f j else j)⟩

/-- `BackgroundJobService.processJob`.  The handler dispatch itself is
abstracted as the `outcome` input (the handlers only touch other tables).
Missing job or non-`pending` status → return false untouched; otherwise
mark running, run the handler; on success mark completed; on exception
increment `attempts`, record `lastError`, then mark `failed` when
`attempts ≥ maxAttempts` and revert to `pending` otherwise. -/
def processJob (st : JobStore) (jobId : ℕ) (now : ℤ) (outcome : ExecOutcome) :
    ProcessResult :=
  match findJob st jobId with
  | none => ⟨false, false, st⟩
  | some job =>
    if job.status ≠ .pending then ⟨false, false, st⟩
    else
      let st1 := updateJob st jobId
        (fun j => { j with status := .running, startedAt := some now })
      match outcome with
      | .ok =>
        ⟨true, true, updateJob st1 jobId
          (fun j => { j with status := .completed, completedAt := some now })⟩
      | .threw msg =>
        let st2 := updateJob st1 jobId
          (fun j => { j with attempts := j.attempts + 1, lastError := some msg })
        match findJob st2 jobId with
        | none => ⟨false, true, st2⟩
        | some updated =>
          if updated.attempts ≥ updated.maxAttempts then
            ⟨false, true, updateJob st2 jobId (fun j => { j with status := .failed })⟩
          else
            ⟨false, true, updateJob st2 jobId (fun j => { j with status := .pending })⟩

/-- Repeated failing runs of the same job: apply `processJob` with a
throwing handler `n` times. -/
def failRuns (jobId : ℕ) (now : ℤ) (msg : String) :
    ℕ → JobStore → JobStore
  | 0, st => st
  | n + 1, st => failRuns jobId now msg n (processJob st jobId now (.threw msg)).store

/-! ## Theorems for C3, C10 and C4 -/

/-- C3: scheduling a cache refresh is idempotent.  Starting from a job
table with no non-terminal `refresh_cache` job for cache id X, calling
`scheduleRefresh X` twice leaves exactly one non-terminal refresh job
for X, and the second call returns the job of the first call instead of
creating a new one (the table is unchanged by the second call). -/
theorem schedule_refresh_idempotent (st : JobStore) (cacheId : String)
    (p1 p2 now1 now2 : ℤ)
    (h : st.jobs.countP (refreshJobMatches cacheId) = 0) :
    (scheduleRefresh (scheduleRefresh st cacheId p1 now1).2 cacheId p2 now2).2.jobs.countP
        (refreshJobMatches cacheId) = 1 ∧
    (scheduleRefresh (scheduleRefresh st cacheId p1 now1).2 cacheId p2 now2).1 =
      (scheduleRefresh st cacheId p1 now1).1 ∧
    (scheduleRefresh (scheduleRefresh st cacheId p1 now1).2 cacheId p2 now2).2 =
      (scheduleRefresh st cacheId p1 now1).2 := by
  have hall := List.countP_eq_zero.mp h
  have hfind : st.jobs.find? (refreshJobMatches cacheId) = none :=
    List.find?_eq_none.mpr (fun x hx => by simp [hall x hx])
  have e1 : scheduleRefresh st cacheId p1 now1 =
      createJob st .refresh_cache [("cacheId", cacheId)] p1 now1 := by
    unfold scheduleRefresh
    rw [hfind]
  have hmatch : refreshJobMatches cacheId
      (createJob st .refresh_cache [("cacheId", cacheId)] p1 now1).1 = true := by
    simp [createJob, refreshJobMatches, payloadField]
  have hjobs : (createJob st .refresh_cache [("cacheId", cacheId)] p1 now1).2.jobs =
      st.jobs ++ [(createJob st .refresh_cache [("cacheId", cacheId)] p1 now1).1] := rfl
  have h2 : ((createJob st .refresh_cache [("cacheId", cacheId)] p1 now1).2.jobs).find?
      (refreshJobMatches cacheId) =
      some (createJob st .refresh_cache [("cacheId", cacheId)] p1 now1).1 := by
    rw [hjobs, List.find?_append, hfind]
    simp [hmatch]
  have e2 : scheduleRefresh
      (createJob st .refresh_cache [("cacheId", cacheId)] p1 now1).2 cacheId p2 now2 =
      ((createJob st .refresh_cache [("cacheId", cacheId)] p1 now1).1,
        (createJob st .refresh_cache [("cacheId", cacheId)] p1 now1).2) := by
    unfold scheduleRefresh
    rw [h2]
  rw [e1, e2]
  refine ⟨?_, rfl, rfl⟩
  rw [hjobs, List.countP_append, h]
  simp [hmatch]

/-- Witness for C3 on a concrete empty job table. -/
theorem schedule_refresh_idempotent_witness :
    (scheduleRefresh (scheduleRefresh ⟨0, []⟩ "cache-1" 2 5).2 "cache-1" 4 9).2.jobs.countP
        (refreshJobMatches "cache-1") = 1 ∧
    (scheduleRefresh (scheduleRefresh ⟨0, []⟩ "cache-1" 2 5).2 "cache-1" 4 9).1 =
      (scheduleRefresh ⟨0, []⟩ "cache-1" 2 5).1 ∧
    (scheduleRefresh (scheduleRefresh ⟨0, []⟩ "cache-1" 2 5).2 "cache-1" 4 9).2 =
      (scheduleRefresh ⟨0, []⟩ "cache-1" 2 5).2 :=
  schedule_refresh_idempotent ⟨0, []⟩ "cache-1" 2 4 5 9 (by decide)

/-- Guard of C10 as the code computes it: the job does not exist, or its
status is not `pending`. -/
def notPendingOrMissing (st : JobStore) (jobId : ℕ) : Bool :=
  match findJob st jobId with
  | none => true
  | some j => j.status ≠ .pending

/-- C10: `processJob` only admits `pending` jobs: when the job is
missing or its status is `running`, `completed` or `failed`, it returns
false without reaching any handler and without changing the job table. -/
theorem process_job_requires_pending (st : JobStore) (jobId : ℕ) (now : ℤ)
    (outcome : ExecOutcome) (h : notPendingOrMissing st jobId = true) :
    processJob st jobId now outcome = ⟨false, false, st⟩ := by
  unfold notPendingOrMissing at h
  unfold processJob
  cases hf : findJob st jobId with
  | none => rfl
  | some j =>
    rw [hf] at h
    have h' : j.status ≠ .pending := of_decide_eq_true h
    dsimp only
    rw [if_pos h']

/-- Witness for C10: a store whose only job is `completed`. -/
theorem process_job_requires_pending_witness :
    processJob
      ⟨2, [⟨1, .refresh_cache, ⟨.refresh_cache, [("cacheId", "c")]⟩,
        .completed, 0, 0, 3, none, 0, none, none⟩]⟩ 1 7 .ok =
      ⟨false, false,
        ⟨2, [⟨1, .refresh_cache, ⟨.refresh_cache, [("cacheId", "c")]⟩,
          .completed, 0, 0, 3, none, 0, none, none⟩]⟩⟩ :=
  process_job_requires_pending _ 1 7 .ok (by decide)

theorem findJob_singleton (n i : ℕ) (j : BackgroundJob) (hid : j.id = i) :
    findJob ⟨n, [j]⟩ i = some j := by
  unfold findJob
  exact List.find?_cons_of_pos _ (by simp [hid])

theorem updateJob_singleton (n i : ℕ) (j : BackgroundJob)
    (f : BackgroundJob → BackgroundJob) (hid : j.id = i) :
    updateJob ⟨n, [j]⟩ i f = ⟨n, [f j]⟩ := by
  simp [updateJob, hid]

/-- One failing run of the only job of a single-job table: `attempts` is
incremented, `lastError` recorded, and the job lands in `failed` exactly
when the incremented attempts reach `maxAttempts`, in `pending`
otherwise. -/
theorem processJob_fail_single (n : ℕ) (j : BackgroundJob) (now : ℤ)
    (msg : String) (h : j.status = .pending) :
    processJob ⟨n, [j]⟩ j.id now (.threw msg) =
      ⟨false, true, ⟨n, [{ j with
        status := if j.maxAttempts ≤ j.attempts + 1 then .failed else .pending,
        attempts := j.attempts + 1, lastError := some msg,
        startedAt := some now }]⟩⟩ := by
  unfold processJob
  rw [findJob_singleton _ _ _ rfl]
  try dsimp only
  rw [if_neg (by simp [h])]
  try dsimp only
  rw [updateJob_singleton _ _ _ _ rfl, updateJob_singleton _ _ _ _ rfl,
    findJob_singleton _ _ _ rfl]
  try dsimp only
  split
  · rw [updateJob_singleton _ _ _ _ rfl]
  · rw [updateJob_singleton _ _ _ _ rfl]

/-- Iterated failing runs of the only job of a single-job table: after
`k ≥ 1` failures (while the attempt budget allows them), the job carries
`attempts + k` attempts, the recorded error, and is `failed` exactly when
the attempts have reached `maxAttempts`, `pending` otherwise. -/
theorem failRuns_single (n : ℕ) (now : ℤ) (msg : String) :
    ∀ (k : ℕ) (j : BackgroundJob), 1 ≤ k → j.status = .pending →
      j.attempts + k ≤ j.maxAttempts →
      failRuns j.id now msg k ⟨n, [j]⟩ =
        ⟨n, [{ j with
          status := if j.maxAttempts ≤ j.attempts + k then .failed else .pending,
          attempts := j.attempts + k, lastError := some msg,
          startedAt := some now }]⟩ := by
  intro k
  induction k with
  | zero => intro j hk _ _; omega
  | succ k ih =>
    intro j hk hpend hle
    by_cases hk0 : k = 0
    · subst hk0
      show failRuns j.id now msg 0
          (processJob ⟨n, [j]⟩ j.id now (.threw msg)).store = _
      rw [processJob_fail_single n j now msg hpend]
      rfl
    · show failRuns j.id now msg k
          (processJob ⟨n, [j]⟩ j.id now (.threw msg)).store = _
      rw [processJob_fail_single n j now msg hpend]
      rw [if_neg (by omega)]
      have h2 := ih
        ({ j with
            status := .pending
            attempts := j.attempts + 1
            lastError := some msg
            startedAt := some now })
        (by omega) rfl
        (by show j.attempts + 1 + k ≤ j.maxAttempts; omega)
      dsimp only at h2
      have hadd : j.attempts + 1 + k = j.attempts + (k + 1) := by omega
      rw [hadd] at h2
      exact h2

/-- C4: a job whose handler throws on every run reaches the terminal
state `failed` after `maxAttempts` runs: each failing run increments
`attempts` and records `lastError`, the job reverts to `pending` exactly
while `attempts < maxAttempts`, it is `failed` once `attempts`
reaches `maxAttempts`, and the failed job is no longer returned by the
pending-job selection (`getPendingJobs`) that feeds execution. -/
theorem failing_job_reaches_failed (n : ℕ) (j : BackgroundJob)
    (now now2 : ℤ) (msg : String) (limit : ℕ)
    (hpend : j.status = .pending) (h0 : j.attempts = 0)
    (hmax : 1 ≤ j.maxAttempts) :
    (∀ k, 1 ≤ k → k ≤ j.maxAttempts →
      (failRuns j.id now msg k ⟨n, [j]⟩).jobs = [{ j with
        status := if j.maxAttempts ≤ k then .failed else .pending,
        attempts := k, lastError := some msg, startedAt := some now }]) ∧
    (failRuns j.id now msg j.maxAttempts ⟨n, [j]⟩).jobs = [{ j with
        status := .failed, attempts := j.maxAttempts, lastError := some msg,
        startedAt := some now }] ∧
    getPendingJobs (failRuns j.id now msg j.maxAttempts ⟨n, [j]⟩) now2 limit = [] := by
  have hgen : ∀ k, 1 ≤ k → k ≤ j.maxAttempts →
      (failRuns j.id now msg k ⟨n, [j]⟩).jobs = [{ j with
        status := if j.maxAttempts ≤ k then .failed else .pending,
        attempts := k, lastError := some msg, startedAt := some now }] := by
    intro k hk1 hk2
    rw [failRuns_single n now msg k j hk1 hpend (by omega)]
    simp [h0]
  have hterm : (failRuns j.id now msg j.maxAttempts ⟨n, [j]⟩).jobs = [{ j with
      status := .failed, attempts := j.maxAttempts, lastError := some msg,
      startedAt := some now }] := by
    rw [hgen j.maxAttempts hmax le_rfl]
    simp
  refine ⟨hgen, hterm, ?_⟩
  unfold getPendingJobs
  rw [hterm]
  simp [sortBy]

/-- Witness for C4 at a concrete job with three allowed attempts. -/
theorem failing_job_reaches_failed_witness :
    (failRuns 1 4 "boom" 3
      ⟨0, [⟨1, .refresh_cache, ⟨.refresh_cache, [("cacheId", "c")]⟩,
        .pending, 0, 0, 3, none, 0, none, none⟩]⟩).jobs =
      [⟨1, .refresh_cache, ⟨.refresh_cache, [("cacheId", "c")]⟩,
        .failed, 0, 3, 3, some "boom", 0, some 4, none⟩] ∧
    getPendingJobs (failRuns 1 4 "boom" 3
      ⟨0, [⟨1, .refresh_cache, ⟨.refresh_cache, [("cacheId", "c")]⟩,
        .pending, 0, 0, 3, none, 0, none, none⟩]⟩) 99 5 = [] :=
  ⟨(failing_job_reaches_failed 0
      ⟨1, .refresh_cache, ⟨.refresh_cache, [("cacheId", "c")]⟩,
        .pending, 0, 0, 3, none, 0, none, none⟩ 4 99 "boom" 5 rfl rfl
      (by decide)).2.1,
    (failing_job_reaches_failed 0
      ⟨1, .refresh_cache, ⟨.refresh_cache, [("cacheId", "c")]⟩,
        .pending, 0, 0, 3, none, 0, none, none⟩ 4 99 "boom" 5 rfl rfl
      (by decide)).2.2⟩

/-! ## Restaurant discovery (src/unnamed/part_004, RestaurantDiscoveryService) -/

inductive Source
  | scrape | api | both
deriving DecidableEq, Repr

/-- A restaurant card extracted by the search scraper. -/
structure SearchScrapedRestaurant where
  name : List Char
  rating : Option ℚ
  reviewCount : Option ℕ
  address : Option (List Char)
  latitude : Option ℚ
  longitude : Option ℚ
  priceLevel : Option ℕ
  googleMapsUrl : Option (List Char)
  isSponsored : Bool
deriving DecidableEq

structure SearchScrapeResult where
  success : Bool
  restaurants : List SearchScrapedRestaurant
  totalFound : ℕ
  error : Option String
deriving DecidableEq

/-- A result row of the official places API (`PlaceResult`), restricted
to the fields `apiToDiscovered` reads. -/
structure PlaceResult where
  place_id : String
  name : List Char
  formatted_address : List Char
  lat : ℚ
  lng : ℚ
  rating : Option ℚ
  user_ratings_total : Option ℕ
  price_level : Option ℕ
deriving DecidableEq

structure DiscoveredRestaurant where
  name : List Char
  placeId : Option String
  rating : Option ℚ
  reviewCount : Option ℕ
  address : Option (List Char)
  latitude : Option ℚ
  longitude : Option ℚ
  priceLevel : Option ℕ
  googleMapsUrl : Option (List Char)
  source : Source
  prominenceScore : ℚ
deriving DecidableEq

structure DiscoveryResult where
  restaurants : List DiscoveredRestaurant
  scrapeCount : ℕ
  apiCount : ℕ
  apiCallUsed : Bool
deriving DecidableEq

/-- Character class kept by `normalizeName`'s filter
`[^a-zçğıöşü0-9\s]` (the input is already lowercased, so the
case-insensitivity flag adds nothing here). -/
def allowedNameChar (c : Char) : Bool :=
  ('a' ≤ c && c ≤ 'z') || c = 'ç' || c = 'ğ' || c = 'ı' || c = 'ö' ||
    c = 'ş' || c = 'ü' || ('0' ≤ c && c ≤ '9') || isJsWhitespace c

/-- `replace(/\s+/g, ' ')`: each maximal whitespace run becomes one
space.  The flag records whether the previous character was part of a
run. -/
def collapseWsAux : Bool → List Char → List Char
  | _, [] => []
  | inRun, c :: cs =>
    if isJsWhitespace c then
      if inRun then collapseWsAux true cs
      else ' ' :: collapseWsAux true cs
    else c :: collapseWsAux false cs

def collapseWs (s : List Char) : List Char := collapseWsAux false s

/-- `normalizeName`: lowercase, drop characters outside the allowed
class, collapse whitespace, trim. -/
def normalizeName (s : List Char) : List Char :=
  jsTrim (collapseWs ((jsToLowerCase s).filter allowedNameChar))

/-- JS `String.prototype.includes`: `needle` occurs contiguously in
`hay`. -/
def isSubstringOf (needle hay : List Char) : Bool :=
  hay.tails.any (fun t => needle.isPrefixOf t)

/-- `areNamesSimilar`: equal normalized names, or one normalized name a
substring of the other. -/
def areNamesSimilar (a b : List Char) : Bool :=
  let normA := normalizeName a
  let normB := normalizeName b
  if normA = normB then true
  else isSubstringOf normB normA || isSubstringOf normA normB

/-- The constant 0.1 (km) in reduced rational form. -/
def km0_1 : ℚ := ⟨1, 10, by decide, by decide⟩

/-- `areClose`: false when any coordinate is missing, otherwise compare
the haversine distance with the threshold.  The floating-point
`calculateDistance` is abstracted as the `dist` parameter. -/
def areClose (dist : ℚ → ℚ → ℚ → ℚ → ℚ)
    (lat1 lng1 lat2 lng2 : Option ℚ) (thresholdKm : ℚ) : Bool :=
  match lat1, lng1, lat2, lng2 with
  | some a, some b, some c, some d => decide (dist a b c d ≤ thresholdKm)
  | _, _, _, _ => false

/-- `calculateProminenceScore`: (rating || 0) × log10((reviewCount || 0)
+ 1), with the floating-point `Math.log10` abstracted as the `log10`
parameter. -/
def calculateProminenceScore (log10 : ℚ → ℚ) (rating : Option ℚ)
    (reviewCount : Option ℕ) : ℚ :=
  (rating.getD 0) * log10 ((reviewCount.getD 0 : ℚ) + 1)

def apiToDiscovered (log10 : ℚ → ℚ) (p : PlaceResult) : DiscoveredRestaurant :=
  { name := p.name, placeId := some p.place_id, rating := p.rating,
    reviewCount := p.user_ratings_total, address := some p.formatted_address,
    latitude := some p.lat, longitude := some p.lng,
    priceLevel := p.price_level, googleMapsUrl := none, source := .api,
    prominenceScore := calculateProminenceScore log10 p.rating p.user_ratings_total }

def scrapeToDiscovered (log10 : ℚ → ℚ) (r : SearchScrapedRestaurant) :
    DiscoveredRestaurant :=
  { name := r.name, placeId := none, rating := r.rating,
    reviewCount := r.reviewCount, address := r.address,
    latitude := r.latitude, longitude := r.longitude,
    priceLevel := r.priceLevel, googleMapsUrl := r.googleMapsUrl,
    source := .scrape,
    prominenceScore := calculateProminenceScore log10 r.rating r.reviewCount }

/-- JS truthiness of an optional string (absent and "" are falsy). -/
def jsTruthyOptStr (s : Option (List Char)) : Bool :=
  match s with
  | none => false
  | some l => !l.isEmpty

/-- JS truthiness of an optional number (absent and 0 are falsy). -/
def jsTruthyOptQ (x : Option ℚ) : Bool :=
  match x with
  | none => false
  | some q => decide (q ≠ 0)

def jsTruthyOptNat (n : Option ℕ) : Bool :=
  match n with
  | none => false
  | some k => decide (k ≠ 0)

/-- `enrichFromScrape`: mark provenance `both`, fill missing URL,
address, price level and coordinates from the scraped entry, and take
the scraped review count when it is larger, recomputing the prominence
score. -/
def enrichFromScrape (log10 : ℚ → ℚ) (existing scrape : DiscoveredRestaurant) :
    DiscoveredRestaurant :=
  let e0 := { existing with source := Source.both }
  let e1 := if !jsTruthyOptStr e0.googleMapsUrl && jsTruthyOptStr scrape.googleMapsUrl
    then { e0 with googleMapsUrl := scrape.googleMapsUrl } else e0
  let e2 := if !jsTruthyOptStr e1.address && jsTruthyOptStr scrape.address
    then { e1 with address := scrape.address } else e1
  let e3 := if !jsTruthyOptNat e2.priceLevel && jsTruthyOptNat scrape.priceLevel
    then { e2 with priceLevel := scrape.priceLevel } else e2
  let e4 := if !jsTruthyOptQ e3.latitude && jsTruthyOptQ scrape.latitude
    then { e3 with latitude := scrape.latitude, longitude := scrape.longitude } else e3
  if jsTruthyOptNat scrape.reviewCount &&
      (!jsTruthyOptNat e4.reviewCount ||
        decide (e4.reviewCount.getD 0 < scrape.reviewCount.getD 0))
  then { e4 with
          reviewCount := scrape.reviewCount
          prominenceScore := calculateProminenceScore log10 e4.rating scrape.reviewCount }
  else e4

/-- The duplicate test of the inner loop of `mergeAndDedup`: exact
normalized-name equality, or similar names with coordinates within
0.1 km. -/
def isDupMatch (dist : ℚ → ℚ → ℚ → ℚ → ℚ)
    (existing scrapeItem : DiscoveredRestaurant) : Bool :=
  let nameSimilar := areNamesSimilar existing.name scrapeItem.name
  if normalizeName existing.name = normalizeName scrapeItem.name then true
  else nameSimilar && areClose dist existing.latitude existing.longitude
    scrapeItem.latitude scrapeItem.longitude km0_1

/-- Replace the first element satisfying `p` by its `f`-image (the inner
loop's first-match-then-break); `none` when no element matches. -/
def updateFirstMatch (p : DiscoveredRestaurant → Bool)
    (f : DiscoveredRestaurant → DiscoveredRestaurant) :
    List DiscoveredRestaurant → Option (List DiscoveredRestaurant)
  | [] => none
  | x :: xs =>
    if p x then some (f x :: xs)
    else (updateFirstMatch p f xs).map (fun l => x :: l)

/-- One iteration of the outer loop of `mergeAndDedup`: enrich the first
matching merged entry, or append the scrape item as a new entry. -/
def mergeStep (log10 : ℚ → ℚ) (dist : ℚ → ℚ → ℚ → ℚ → ℚ)
    (merged : List DiscoveredRestaurant) (scrapeItem : DiscoveredRestaurant) :
    List DiscoveredRestaurant :=
  match updateFirstMatch (fun existing => isDupMatch dist existing scrapeItem)
      (fun existing => enrichFromScrape log10 existing scrapeItem) merged with
  | some merged2 => merged2
  | none => merged ++ [scrapeItem]

/-- `RestaurantDiscoveryService.mergeAndDedup`: seed with the API
results, then fold the scrape results through the duplicate test. -/
def mergeAndDedup (log10 : ℚ → ℚ) (dist : ℚ → ℚ → ℚ → ℚ → ℚ)
    (apiResults scrapeResults : List DiscoveredRestaurant) :
    List DiscoveredRestaurant :=
  scrapeResults.foldl (mergeStep log10 dist) apiResults

/-- Comparator of the final ranking: prominence score descending. -/
def scoreOrder (a b : DiscoveredRestaurant) : Bool :=
  decide (b.prominenceScore ≤ a.prominenceScore)

/-- The "Process scrape results" block of `discover`: the normalized
crawler candidate list — empty when the promise rejected or the scrape
reported failure, otherwise the non-sponsored results converted to
`DiscoveredRestaurant`. -/
def processScrapeSettled (log10 : ℚ → ℚ)
    (scrapeSettled : Except String SearchScrapeResult) :
    List DiscoveredRestaurant :=
  match scrapeSettled with
  | .ok res =>
    if res.success then
      (res.restaurants.filter (fun r => !r.isSponsored)).map (scrapeToDiscovered log10)
    else []
  | .error _ => []

/-- `RestaurantDiscoveryService.discover`.  The crawler and API branches
are the `scrapeSettled` and `apiPlaces` inputs (the values their
promises settle with); `canUseApi` is the quota decision.  When the
quota is exhausted the API branch is the resolved-null promise of the
source.  `callApi`'s mapping of places is inlined where the branch is
launched. -/
def discover (log10 : ℚ → ℚ) (dist : ℚ → ℚ → ℚ → ℚ → ℚ) (canUseApi : Bool)
    (scrapeSettled : Except String SearchScrapeResult)
    (apiPlaces : Except String (List PlaceResult)) (topN : ℕ) :
    DiscoveryResult :=
  let scrapeRestaurants : List DiscoveredRestaurant :=
    processScrapeSettled log10 scrapeSettled
  let apiSettled : Except String (Option (List DiscoveredRestaurant)) :=
    if canUseApi then
      match apiPlaces with
      | .ok ps => .ok (some (ps.map (apiToDiscovered log10)))
      | .error e => .error e
    else .ok none
  let apiPart : List DiscoveredRestaurant × Bool :=
    match apiSettled with
    | .ok (some rs) => (rs, true)
    | _ => ([], false)
  let merged := mergeAndDedup log10 dist apiPart.1 scrapeRestaurants
  { restaurants := (sortBy scoreOrder merged).take topN,
    scrapeCount := scrapeRestaurants.length,
    apiCount := apiPart.1.length,
    apiCallUsed := apiPart.2 }

/-- The constant-zero stand-in for `Math.log10` used at concrete
inputs. -/
def log10zero : ℚ → ℚ := fun _ => 0

/-- A distance oracle placing every pair of points at 0 km. -/
def distZero : ℚ → ℚ → ℚ → ℚ → ℚ := fun _ _ _ _ => 0

/-- A distance oracle placing every pair of points 1 km apart. -/
def distOne : ℚ → ℚ → ℚ → ℚ → ℚ := fun _ _ _ _ => 1

/-! ## Lemmas about the merge step -/

theorem enrichFromScrape_source (log10 : ℚ → ℚ)
    (e s : DiscoveredRestaurant) :
    (enrichFromScrape log10 e s).source = .both := by
  unfold enrichFromScrape
  dsimp only
  split_ifs <;> rfl

theorem updateFirstMatch_forall (P : DiscoveredRestaurant → Prop)
    (p : DiscoveredRestaurant → Bool)
    (f : DiscoveredRestaurant → DiscoveredRestaurant)
    (hf : ∀ x, P (f x)) :
    ∀ (l l' : List DiscoveredRestaurant), updateFirstMatch p f l = some l' →
      (∀ x ∈ l, P x) → ∀ x ∈ l', P x := by
  intro l
  induction l with
  | nil => intro l' h; exact Option.noConfusion h
  | cons a as ih =>
    intro l' h hl
    unfold updateFirstMatch at h
    by_cases hp : p a = true
    · rw [if_pos hp] at h
      injection h with h'
      subst h'
      intro x hx
      rcases List.mem_cons.mp hx with hx | hx
      · subst hx; exact hf a
      · exact hl x (List.mem_cons_of_mem _ hx)
    · rw [if_neg hp] at h
      cases hrec : updateFirstMatch p f as with
      | none => rw [hrec] at h; simp at h
      | some l'' =>
        rw [hrec] at h
        simp only [Option.map_some', Option.some.injEq] at h
        subst h
        intro x hx
        rcases List.mem_cons.mp hx with hx | hx
        · subst hx; exact hl x (List.mem_cons_self _ _)
        · exact ih l'' hrec (fun y hy => hl y (List.mem_cons_of_mem _ hy)) x hx

theorem mergeStep_not_api (log10 : ℚ → ℚ) (dist : ℚ → ℚ → ℚ → ℚ → ℚ)
    (merged : List DiscoveredRestaurant) (item : DiscoveredRestaurant)
    (hm : ∀ x ∈ merged, x.source ≠ .api) (hi : item.source ≠ .api) :
    ∀ x ∈ mergeStep log10 dist merged item, x.source ≠ .api := by
  unfold mergeStep
  cases hu : updateFirstMatch (fun existing => isDupMatch dist existing item)
      (fun existing => enrichFromScrape log10 existing item) merged with
  | none =>
    intro x hx
    rcases List.mem_append.mp hx with hx | hx
    · exact hm x hx
    · rw [List.mem_singleton.mp hx]; exact hi
  | some merged2 =>
    exact updateFirstMatch_forall (fun x => x.source ≠ .api) _ _
      (fun x => show (enrichFromScrape log10 x item).source ≠ .api by
        rw [enrichFromScrape_source]; intro hcon; cases hcon)
      merged merged2 hu hm

theorem mergeAndDedup_not_api (log10 : ℚ → ℚ) (dist : ℚ → ℚ → ℚ → ℚ → ℚ) :
    ∀ (scrape api : List DiscoveredRestaurant),
      (∀ x ∈ api, x.source ≠ .api) → (∀ x ∈ scrape, x.source ≠ .api) →
      ∀ x ∈ mergeAndDedup log10 dist api scrape, x.source ≠ .api := by
  intro scrape
  induction scrape with
  | nil => intro api hapi _; exact hapi
  | cons s rest ih =>
    intro api hapi hscrape
    have hstep := mergeStep_not_api log10 dist api s hapi
      (hscrape s (List.mem_cons_self _ _))
    exact ih (mergeStep log10 dist api s) hstep
      (fun y hy => hscrape y (List.mem_cons_of_mem _ hy))

theorem mem_insertSorted {α : Type} (le : α → α → Bool) (a x : α) :
    ∀ l : List α, x ∈ insertSorted le a l ↔ x = a ∨ x ∈ l := by
  intro l
  induction l with
  | nil => simp [insertSorted]
  | cons b bs ih =>
    unfold insertSorted
    by_cases hc : le a b = true
    · rw [if_pos hc]
      simp
    · rw [if_neg hc]
      simp only [List.mem_cons, ih]
      tauto

theorem mem_sortBy {α : Type} (le : α → α → Bool) (x : α) :
    ∀ l : List α, x ∈ sortBy le l ↔ x ∈ l := by
  intro l
  induction l with
  | nil => simp [sortBy]
  | cons b bs ih =>
    show x ∈ insertSorted le b (sortBy le bs) ↔ _
    rw [mem_insertSorted]
    simp only [List.mem_cons, ih]

/-! ## Theorems for C7, C6 and C5 -/

/-- C7: fuzzy dedup requires proximity.  Two results whose normalized
names are similar (one a substring of the other) but not identical, and
whose coordinates the distance function places 1 km apart (beyond the
0.1 km threshold), stay two distinct entries in the merged list. -/
theorem fuzzy_dedup_requires_proximity (log10 : ℚ → ℚ)
    (dist : ℚ → ℚ → ℚ → ℚ → ℚ) (a b : DiscoveredRestaurant)
    (la lnga lb lngb : ℚ)
    (hla : a.latitude = some la) (hlnga : a.longitude = some lnga)
    (hlb : b.latitude = some lb) (hlngb : b.longitude = some lngb)
    (hdist : dist la lnga lb lngb = 1)
    (hne : normalizeName a.name ≠ normalizeName b.name)
    (_hsim : areNamesSimilar a.name b.name = true) :
    mergeAndDedup log10 dist [a] [b] = [a, b] := by
  have hclose : areClose dist a.latitude a.longitude b.latitude b.longitude
      km0_1 = false := by
    rw [hla, hlnga, hlb, hlngb]
    show decide (dist la lnga lb lngb ≤ km0_1) = false
    rw [hdist]
    exact decide_eq_false (by decide)
  have hdup : isDupMatch dist a b = false := by
    unfold isDupMatch
    rw [if_neg hne]
    rw [hclose]
    simp
  show mergeStep log10 dist [a] b = [a, b]
  unfold mergeStep
  have hmatch : updateFirstMatch (fun existing => isDupMatch dist existing b)
      (fun existing => enrichFromScrape log10 existing b) [a] = none := by
    simp [updateFirstMatch, hdup]
  rw [hmatch]
  rfl

/-- Witness for C7 on the names "Çiya Sofrası" / "Çiya" with a distance
oracle reporting 1 km. -/
theorem fuzzy_dedup_requires_proximity_witness :
    mergeAndDedup log10zero distOne
      [⟨"Çiya Sofrası".data, some ("p1"), none, none, none, some 41, some 29,
        none, none, .api, 0⟩]
      [⟨"Çiya".data, none, none, none, none, some 41, some 29,
        none, none, .scrape, 0⟩] =
      [⟨"Çiya Sofrası".data, some ("p1"), none, none, none, some 41, some 29,
        none, none, .api, 0⟩,
       ⟨"Çiya".data, none, none, none, none, some 41, some 29,
        none, none, .scrape, 0⟩] :=
  fuzzy_dedup_requires_proximity log10zero distOne
    ⟨"Çiya Sofrası".data, some ("p1"), none, none, none, some 41, some 29,
      none, none, .api, 0⟩
    ⟨"Çiya".data, none, none, none, none, some 41, some 29,
      none, none, .scrape, 0⟩
    41 29 41 29 rfl rfl rfl rfl rfl (by decide) (by decide)

/-- C6: evaluation of the merge on the claim's own input.  A crawl
result named "ÇİYA SOFRASI" whose coordinates the distance oracle
places 0 km (within 0.1 km) from an API result named "Çiya Sofrası" is
NOT merged: `toLowerCase` maps İ to i-with-combining-dot and I to plain
i (not the Turkish dotless ı), so the normalized names differ in their
final character, fail both the equality and the substring test, and the
crawl result is appended as a separate `scrape` entry instead of
marking the API entry `both`. -/
theorem ciya_merge_not_merged :
    (mergeAndDedup log10zero distZero
      [⟨"Çiya Sofrası".data, some ("p1"), none, none, none, some 41, some 29,
        none, none, .api, 0⟩]
      [⟨"ÇİYA SOFRASI".data, none, none, none, none, some 41, some 29,
        none, none, .scrape, 0⟩]).map (fun r => r.source) =
      [Source.api, Source.scrape] ∧
    normalizeName ("ÇİYA SOFRASI").data ≠ normalizeName ("Çiya Sofrası").data ∧
    areNamesSimilar ("Çiya Sofrası").data ("ÇİYA SOFRASI").data = false := by
  refine ⟨by decide, by decide, by decide⟩

/-- Scrape-path candidates all carry provenance `scrape`. -/
theorem processScrapeSettled_source (log10 : ℚ → ℚ)
    (se : Except String SearchScrapeResult) :
    ∀ x ∈ processScrapeSettled log10 se, x.source = .scrape := by
  intro x hx
  cases se with
  | error e => exact absurd hx (List.not_mem_nil x)
  | ok res =>
    simp only [processScrapeSettled] at hx
    by_cases hs : res.success = true
    · rw [if_pos hs] at hx
      obtain ⟨y, _, rfl⟩ := List.mem_map.mp hx
      rfl
    · rw [if_neg hs] at hx
      exact absurd hx (List.not_mem_nil x)

/-- C5 (amended): a discovery run with the monthly quota exhausted
reports `apiCallUsed = false` and `apiCount = 0`, and every returned
restaurant is crawler-sourced: its provenance is never `api` (it is
`scrape`, or `both` when two crawler candidates merged with each
other). -/
theorem discover_quota_exhausted_scrape_only (log10 : ℚ → ℚ)
    (dist : ℚ → ℚ → ℚ → ℚ → ℚ)
    (scrapeSettled : Except String SearchScrapeResult)
    (apiPlaces : Except String (List PlaceResult)) (topN : ℕ) :
    (discover log10 dist false scrapeSettled apiPlaces topN).apiCallUsed = false ∧
    (discover log10 dist false scrapeSettled apiPlaces topN).apiCount = 0 ∧
    ∀ r ∈ (discover log10 dist false scrapeSettled apiPlaces topN).restaurants,
      r.source ≠ Source.api := by
  refine ⟨rfl, rfl, ?_⟩
  intro r hr
  have hr1 : r ∈ sortBy scoreOrder (mergeAndDedup log10 dist []
      (processScrapeSettled log10 scrapeSettled)) :=
    List.take_subset _ _ hr
  have hr2 : r ∈ mergeAndDedup log10 dist []
      (processScrapeSettled log10 scrapeSettled) :=
    (mem_sortBy _ _ _).mp hr1
  exact mergeAndDedup_not_api log10 dist _ []
    (fun x hx => absurd hx (List.not_mem_nil x))
    (fun x hx => by
      rw [processScrapeSettled_source log10 scrapeSettled x hx]
      intro hcon
      cases hcon)
    r hr2

/-- Witness for C5 (amended) on a concrete quota-exhausted run. -/
theorem discover_quota_exhausted_scrape_only_witness :
    (discover log10zero distZero false
      (.ok ⟨true, [⟨"Çiya".data, none, none, none, some 41, some 29,
        none, none, false⟩], 1, none⟩) (.ok []) 5).apiCallUsed = false ∧
    (discover log10zero distZero false
      (.ok ⟨true, [⟨"Çiya".data, none, none, none, some 41, some 29,
        none, none, false⟩], 1, none⟩) (.ok []) 5).apiCount = 0 ∧
    ∀ r ∈ (discover log10zero distZero false
      (.ok ⟨true, [⟨"Çiya".data, none, none, none, some 41, some 29,
        none, none, false⟩], 1, none⟩) (.ok []) 5).restaurants,
      r.source ≠ Source.api :=
  discover_quota_exhausted_scrape_only log10zero distZero
    (.ok ⟨true, [⟨"Çiya".data, none, none, none, some 41, some 29,
      none, none, false⟩], 1, none⟩) (.ok []) 5

/-- Counterexample to C5 as stated: with the quota exhausted and two
crawler candidates "Çiya" and "Çiya Sofrası" at the same spot, the
merge step fuzzy-matches them against each other and the surviving
entry carries provenance `both`, not `scrape`. -/
theorem discover_quota_exhausted_counterexample :
    ¬ ((discover log10zero distZero false
        (.ok ⟨true,
          [⟨"Çiya".data, none, none, none, some 41, some 29, none, none, false⟩,
           ⟨"Çiya Sofrası".data, none, none, none, some 41, some 29, none, none, false⟩],
          2, none⟩) (.ok []) 5).apiCallUsed = false ∧
      (discover log10zero distZero false
        (.ok ⟨true,
          [⟨"Çiya".data, none, none, none, some 41, some 29, none, none, false⟩,
           ⟨"Çiya Sofrası".data, none, none, none, some 41, some 29, none, none, false⟩],
          2, none⟩) (.ok []) 5).apiCount = 0 ∧
      ∀ r ∈ (discover log10zero distZero false
        (.ok ⟨true,
          [⟨"Çiya".data, none, none, none, some 41, some 29, none, none, false⟩,
           ⟨"Çiya Sofrası".data, none, none, none, some 41, some 29, none, none, false⟩],
          2, none⟩) (.ok []) 5).restaurants, r.source = Source.scrape) := by
  intro h
  obtain ⟨-, -, hall⟩ := h
  have hsrc : (discover log10zero distZero false
      (.ok ⟨true,
        [⟨"Çiya".data, none, none, none, some 41, some 29, none, none, false⟩,
         ⟨"Çiya Sofrası".data, none, none, none, some 41, some 29, none, none, false⟩],
        2, none⟩) (.ok []) 5).restaurants.map (fun r => r.source) =
      [Source.both] := by decide
  have hmem : Source.both ∈ (discover log10zero distZero false
      (.ok ⟨true,
        [⟨"Çiya".data, none, none, none, some 41, some 29, none, none, false⟩,
         ⟨"Çiya Sofrası".data, none, none, none, some 41, some 29, none, none, false⟩],
        2, none⟩) (.ok []) 5).restaurants.map (fun r => r.source) := by
    rw [hsrc]
    exact List.mem_singleton.mpr rfl
  obtain ⟨r, hr, hr2⟩ := List.mem_map.mp hmem
  rw [hall r hr] at hr2
  cases hr2

/-! ## Crawl engine call boundary
(src/src/lib/scraping/proxy-service.ts, GoogleMapsScraper.scrapeReviews
and GoogleMapsSearchScraper.scrapeSearchResults) -/

structure ScrapedReviewData where
  authorName : List Char
  rating : ℚ
  text : List Char
  pricePerPerson : Option (List Char)
  relativeTime : Option (List Char)
  matchedKeywords : List (List Char)
deriving DecidableEq

structure ScrapedRestaurantData where
  googlePlaceId : String
  name : List Char
  formattedAddress : List Char
  latitude : ℚ
  longitude : ℚ
  rating : Option ℚ
  totalReviews : Option ℕ
deriving DecidableEq

/-- `ScrapeResult` of the review scraper; the `scrapedAt` timestamp and
the `proxyUsed` echo field are omitted (wall-clock data not touched by
the modelled control flow). -/
structure ScrapeResult where
  success : Bool
  restaurant : Option ScrapedRestaurantData
  reviews : List ScrapedReviewData
  error : Option String
deriving DecidableEq

/-- Environment of one `scrapeReviews` call: whether the i-th (1-based)
proxy connection attempt gets the page loaded, and how the
post-connection extraction phase (consent handling, tab navigation,
review collection, restaurant info) settles — a value or a thrown
exception. -/
structure ReviewScrapeEnv where
  connect : ℕ → Bool
  extraction : Except String (ScrapedRestaurantData × List ScrapedReviewData)

def maxProxyAttempts : ℕ := 10

/-- The connection loop: attempts 1..10 in order, stopping at the first
success. -/
def firstConnect (connect : ℕ → Bool) : Option ℕ :=
  (List.range' 1 maxProxyAttempts).find? connect

/-- Number of proxy connection attempts the loop consumes: the index of
the first success, or all 10 when every attempt fails. -/
def connectionAttemptsUsed (connect : ℕ → Bool) : ℕ :=
  match firstConnect connect with
  | some k => k
  | none => maxProxyAttempts

/-- `GoogleMapsScraper.scrapeReviews`: exhausting the connection loop
throws internally and the outer catch converts it — like any extraction
exception — into a structured failure result.  The failure message text
is abbreviated to its fixed prefix (the source appends the last
error). -/
def scrapeReviews (env : ReviewScrapeEnv) : ScrapeResult :=
  match firstConnect env.connect with
  | none =>
    { success := false, restaurant := none, reviews := [],
      error := some ("All 10 proxy attempts failed") }
  | some _ =>
    match env.extraction with
    | .ok data =>
      { success := true, restaurant := some data.1, reviews := data.2,
        error := none }
    | .error e =>
      { success := false, restaurant := none, reviews := [], error := some e }

/-- Environment of one `scrapeSearchResults` call: connection attempts,
whether the results container selector appears, and how the
scroll-and-collect extraction settles. -/
structure SearchScrapeEnv where
  connect : ℕ → Bool
  containerFound : Bool
  collect : Except String (List SearchScrapedRestaurant)

/-- `GoogleMapsSearchScraper.scrapeSearchResults`. -/
def scrapeSearchResults (env : SearchScrapeEnv) : SearchScrapeResult :=
  match firstConnect env.connect with
  | none => ⟨false, [], 0, some ("All 10 proxy attempts failed")⟩
  | some _ =>
    if !env.containerFound then
      ⟨false, [], 0, some ("Results container not found")⟩
    else
      match env.collect with
      | .ok rs => ⟨true, rs, rs.length, none⟩
      | .error e => ⟨false, [], 0, some e⟩

theorem connectionAttemptsUsed_le (connect : ℕ → Bool) :
    connectionAttemptsUsed connect ≤ maxProxyAttempts := by
  unfold connectionAttemptsUsed
  cases hf : firstConnect connect with
  | none => exact le_rfl
  | some k =>
    have hk := List.mem_of_find?_eq_some hf
    have hk2 := (List.mem_range'_1.mp hk).2
    show k ≤ maxProxyAttempts
    omega

/-- C8: every crawl call makes at most 10 proxy connection attempts, and
never throws past the call boundary: whenever a review scrape or a
listing scrape does not succeed — connection-loop exhaustion and
extraction exceptions included — the call returns a structured failure
result with `success = false`, an empty review / restaurant list, and
error text. -/
theorem crawl_bounded_attempts_structured_failure
    (envR : ReviewScrapeEnv) (envS : SearchScrapeEnv) :
    connectionAttemptsUsed envR.connect ≤ maxProxyAttempts ∧
    connectionAttemptsUsed envS.connect ≤ maxProxyAttempts ∧
    ((scrapeReviews envR).success = false →
      (scrapeReviews envR).reviews = [] ∧
      ((scrapeReviews envR).error).isSome = true) ∧
    ((scrapeSearchResults envS).success = false →
      (scrapeSearchResults envS).restaurants = [] ∧
      ((scrapeSearchResults envS).error).isSome = true) := by
  refine ⟨connectionAttemptsUsed_le _, connectionAttemptsUsed_le _, ?_, ?_⟩
  · intro hfail
    cases hf : firstConnect envR.connect with
    | none => constructor <;> simp [scrapeReviews, hf]
    | some k =>
      cases hx : envR.extraction with
      | ok d => simp [scrapeReviews, hf, hx] at hfail
      | error e => constructor <;> simp [scrapeReviews, hf, hx]
  · intro hfail
    cases hf : firstConnect envS.connect with
    | none => constructor <;> simp [scrapeSearchResults, hf]
    | some k =>
      by_cases hc : envS.containerFound = true
      · cases hx : envS.collect with
        | ok rs => simp [scrapeSearchResults, hf, hc, hx] at hfail
        | error e => constructor <;> simp [scrapeSearchResults, hf, hc, hx]
      · have hc' : envS.containerFound = false := by
          cases h : envS.containerFound
          · rfl
          · exact absurd h hc
        constructor <;> simp [scrapeSearchResults, hf, hc']

/-- Witness for C8: a run whose ten connection attempts all fail, and a
listing run whose extraction throws. -/
theorem crawl_bounded_attempts_structured_failure_witness :
    (scrapeReviews ⟨fun _ => false, .error ("boom")⟩).reviews = [] ∧
    ((scrapeReviews ⟨fun _ => false, .error ("boom")⟩).error).isSome = true ∧
    (scrapeSearchResults ⟨fun _ => true, true, .error ("collapse")⟩).restaurants = [] ∧
    ((scrapeSearchResults ⟨fun _ => true, true, .error ("collapse")⟩).error).isSome = true :=
  ⟨((crawl_bounded_attempts_structured_failure ⟨fun _ => false, .error ("boom")⟩
      ⟨fun _ => true, true, .error ("collapse")⟩).2.2.1 (by decide)).1,
   ((crawl_bounded_attempts_structured_failure ⟨fun _ => false, .error ("boom")⟩
      ⟨fun _ => true, true, .error ("collapse")⟩).2.2.1 (by decide)).2,
   ((crawl_bounded_attempts_structured_failure ⟨fun _ => false, .error ("boom")⟩
      ⟨fun _ => true, true, .error ("collapse")⟩).2.2.2 (by decide)).1,
   ((crawl_bounded_attempts_structured_failure ⟨fun _ => false, .error ("boom")⟩
      ⟨fun _ => true, true, .error ("collapse")⟩).2.2.2 (by decide)).2⟩

/-! ## Proxy rotation (src/src/lib/scraping/proxy-service.ts, ProxyService) -/

inductive ProxyTier
  | high | medium | low
deriving DecidableEq, Repr

structure Proxy where
  address : String
  port : ℕ
  username : Option String
  password : Option String
  tier : ProxyTier
  protocol : String
deriving DecidableEq, Repr

/-- Response of `GET /api/v1/random/{tier}`, restricted to the fields the
service reads (the quality metrics are only logged). -/
structure ProxyApiResponse where
  ip : String
  port : ℕ
  protocol : Option String
deriving DecidableEq, Repr

/-- The `usedProxies` map: target id → addresses already issued for it
in the current exclusion-set generation. -/
abbrev PState : Type := List (String × List String)

def getUsed (st : PState) (placeId : String) : List String :=
  match st.find? (fun e => decide (e.1 = placeId)) with
  | some e => e.2
  | none => []

/-- `usedProxies.get(placeId)!.add(address)` (creating the entry when
missing). -/
def addUsed : PState → String → String → PState
  | [], pid, addr => [(pid, [addr])]
  | e :: rest, pid, addr =>
    if e.1 = pid then (e.1, addr :: e.2) :: rest
    else e :: addUsed rest pid addr

/-- `ProxyService.clearUsedProxies`: `usedProxies.delete(placeId)`. -/
def clearUsedProxies (st : PState) (placeId : String) : PState :=
  st.filter (fun e => decide (e.1 ≠ placeId))

/-- `ProxyService.fetchProxyRetry`: one more upstream draw, rejected if
invalid or already used for the target. -/
def fetchProxyRetry (st : PState) (tier : ProxyTier) (placeId : String)
    (usedForPlace : List String) (resp : Option ProxyApiResponse) :
    Option Proxy × PState :=
  match resp with
  | none => (none, st)
  | some d =>
    if d.ip = "" ∨ d.port = 0 ∨ d.ip ∈ usedForPlace then (none, st)
    else (some ⟨d.ip, d.port, none, none, tier, d.protocol.getD ("http")⟩,
      addUsed st placeId d.ip)

/-- `ProxyService.fetchProxy`: one upstream draw (`resp1` is the parsed
response, `none` for a non-OK or failed request); a draw whose address
was already issued for this target triggers exactly one retry
(`resp2`). -/
def fetchProxy (st : PState) (tier : ProxyTier) (placeId : String)
    (resp1 resp2 : Option ProxyApiResponse) : Option Proxy × PState :=
  match resp1 with
  | none => (none, st)
  | some d =>
    if d.ip = "" ∨ d.port = 0 then (none, st)
    else if d.ip ∈ getUsed st placeId then
      fetchProxyRetry st tier placeId (getUsed st placeId) resp2
    else (some ⟨d.ip, d.port, none, none, tier, d.protocol.getD ("http")⟩,
      addUsed st placeId d.ip)

/-- `ProxyService.getProxy`: preferred tier first, then the
complementary tier; each tier makes one `fetchProxy` call with its own
upstream responses. -/
def getProxy (st : PState) (placeId : String) (preferredTier : ProxyTier)
    (rFirst rSecond : Option ProxyApiResponse × Option ProxyApiResponse) :
    Option Proxy × PState :=
  let t1 : ProxyTier := if preferredTier = .high then .high else .medium
  let t2 : ProxyTier := if preferredTier = .high then .medium else .high
  let first := fetchProxy st t1 placeId rFirst.1 rFirst.2
  match first.1 with
  | some p => (some p, first.2)
  | none => fetchProxy first.2 t2 placeId rSecond.1 rSecond.2

theorem getUsed_addUsed_self (pid a : String) :
    ∀ st : PState, getUsed (addUsed st pid a) pid = a :: getUsed st pid := by
  intro st
  induction st with
  | nil => simp [addUsed, getUsed]
  | cons e rest ih =>
    by_cases he : e.1 = pid
    · unfold addUsed
      rw [if_pos he]
      unfold getUsed
      rw [List.find?_cons_of_pos _ (by simp [he]),
        List.find?_cons_of_pos _ (by simp [he])]
    · unfold addUsed
      rw [if_neg he]
      unfold getUsed
      rw [List.find?_cons_of_neg _ (by simp [he]),
        List.find?_cons_of_neg _ (by simp [he])]
      exact ih

theorem getUsed_clear (pid : String) :
    ∀ st : PState, getUsed (clearUsedProxies st pid) pid = [] := by
  intro st
  induction st with
  | nil => rfl
  | cons e rest ih =>
    unfold clearUsedProxies at *
    by_cases he : e.1 = pid
    · rw [List.filter_cons_of_neg (by simp [he])]
      exact ih
    · rw [List.filter_cons_of_pos (by simp [he])]
      unfold getUsed
      rw [List.find?_cons_of_neg _ (by simp [he])]
      exact ih

/-- A `fetchProxy` draw that yields a proxy never reuses an address from
the target's exclusion set, records the issued address there, and keeps
every previously recorded address. -/
theorem fetchProxy_some_spec (st : PState) (tier : ProxyTier) (pid : String)
    (r1 r2 : Option ProxyApiResponse) (p : Proxy) (st' : PState)
    (h : fetchProxy st tier pid r1 r2 = (some p, st')) :
    p.address ∉ getUsed st pid ∧ p.address ∈ getUsed st' pid ∧
      ∀ x ∈ getUsed st pid, x ∈ getUsed st' pid := by
  cases r1 with
  | none => simp [fetchProxy] at h
  | some d =>
    unfold fetchProxy at h
    try dsimp only at h
    by_cases hv : d.ip = "" ∨ d.port = 0
    · rw [if_pos hv] at h
      simp at h
    · rw [if_neg hv] at h
      by_cases hmem : d.ip ∈ getUsed st pid
      · rw [if_pos hmem] at h
        cases r2 with
        | none => simp [fetchProxyRetry] at h
        | some d2 =>
          unfold fetchProxyRetry at h
          try dsimp only at h
          by_cases hv2 : d2.ip = "" ∨ d2.port = 0 ∨ d2.ip ∈ getUsed st pid
          · rw [if_pos hv2] at h
            simp at h
          · rw [if_neg hv2] at h
            simp only [Prod.mk.injEq, Option.some.injEq] at h
            obtain ⟨hp, hst⟩ := h
            subst hp
            push_neg at hv2
            refine ⟨hv2.2.2, ?_, ?_⟩
            · rw [← hst, getUsed_addUsed_self]
              exact List.mem_cons_self _ _
            · intro x hx
              rw [← hst, getUsed_addUsed_self]
              exact List.mem_cons_of_mem _ hx
      · rw [if_neg hmem] at h
        simp only [Prod.mk.injEq, Option.some.injEq] at h
        obtain ⟨hp, hst⟩ := h
        subst hp
        refine ⟨hmem, ?_, ?_⟩
        · rw [← hst, getUsed_addUsed_self]
          exact List.mem_cons_self _ _
        · intro x hx
          rw [← hst, getUsed_addUsed_self]
          exact List.mem_cons_of_mem _ hx

/-- A draw that yields no proxy leaves the exclusion state unchanged. -/
theorem fetchProxy_none_state (st : PState) (tier : ProxyTier) (pid : String)
    (r1 r2 : Option ProxyApiResponse) (st' : PState)
    (h : fetchProxy st tier pid r1 r2 = (none, st')) : st' = st := by
  cases r1 with
  | none => simpa [fetchProxy] using h.symm
  | some d =>
    unfold fetchProxy at h
    try dsimp only at h
    by_cases hv : d.ip = "" ∨ d.port = 0
    · rw [if_pos hv] at h
      exact (Prod.mk.injEq _ _ _ _ ▸ h).2.symm
    · rw [if_neg hv] at h
      by_cases hmem : d.ip ∈ getUsed st pid
      · rw [if_pos hmem] at h
        cases r2 with
        | none => simpa [fetchProxyRetry] using h.symm
        | some d2 =>
          unfold fetchProxyRetry at h
          try dsimp only at h
          by_cases hv2 : d2.ip = "" ∨ d2.port = 0 ∨ d2.ip ∈ getUsed st pid
          · rw [if_pos hv2] at h
            exact (Prod.mk.injEq _ _ _ _ ▸ h).2.symm
          · rw [if_neg hv2] at h
            simp at h
      · rw [if_neg hmem] at h
        simp at h

/-- C9: the proxy service never returns an address it has already issued
for a target within the current exclusion-set generation — a `fetchProxy`
draw and a full two-tier `getProxy` call only yield addresses outside
the target's exclusion set, recording them there (exhaustion is
signalled by `none` instead of a stale reuse) — and after
`clearUsedProxies(targetId)` the exclusion set is empty, so every
previously issued address is eligible again for that target. -/
theorem proxy_no_reissue_and_clear_resets :
    (∀ (st : PState) (tier : ProxyTier) (pid : String)
      (r1 r2 : Option ProxyApiResponse) (p : Proxy) (st' : PState),
      fetchProxy st tier pid r1 r2 = (some p, st') →
        p.address ∉ getUsed st pid ∧ p.address ∈ getUsed st' pid) ∧
    (∀ (st : PState) (pid : String) (pref : ProxyTier)
      (rF rS : Option ProxyApiResponse × Option ProxyApiResponse)
      (p : Proxy) (st' : PState),
      getProxy st pid pref rF rS = (some p, st') →
        p.address ∉ getUsed st pid ∧ p.address ∈ getUsed st' pid) ∧
    (∀ (st : PState) (pid : String) (a : String),
      a ∉ getUsed (clearUsedProxies st pid) pid) := by
  refine ⟨?_, ?_, ?_⟩
  · intro st tier pid r1 r2 p st' h
    have := fetchProxy_some_spec st tier pid r1 r2 p st' h
    exact ⟨this.1, this.2.1⟩
  · intro st pid pref rF rS p st' h
    unfold getProxy at h
    try dsimp only at h
    cases hp1 : (fetchProxy st (if pref = .high then ProxyTier.high else .medium)
        pid rF.1 rF.2).1 with
    | some q =>
      rw [hp1] at h
      try dsimp only at h
      simp only [Option.some.injEq, Prod.mk.injEq] at h
      obtain ⟨hq, hst⟩ := h
      have heq : fetchProxy st
          (if pref = .high then ProxyTier.high else .medium) pid rF.1 rF.2 =
          (some q, (fetchProxy st
            (if pref = .high then ProxyTier.high else .medium) pid rF.1 rF.2).2) := by
        rw [← hp1]
      have hspec := fetchProxy_some_spec st _ pid rF.1 rF.2 q _ heq
      exact ⟨hq ▸ hspec.1, hq ▸ hst ▸ hspec.2.1⟩
    | none =>
      rw [hp1] at h
      try dsimp only at h
      have heq : fetchProxy st
          (if pref = .high then ProxyTier.high else .medium) pid rF.1 rF.2 =
          (none, (fetchProxy st
            (if pref = .high then ProxyTier.high else .medium) pid rF.1 rF.2).2) := by
        rw [← hp1]
      have hstate := fetchProxy_none_state st _ pid rF.1 rF.2 _ heq
      rw [hstate] at h
      have hspec := fetchProxy_some_spec st _ pid rS.1 rS.2 p st' h
      exact ⟨hspec.1, hspec.2.1⟩
  · intro st pid a
    rw [getUsed_clear]
    exact List.not_mem_nil a

/-- Witness for C9: a fresh draw on an empty exclusion state issues the
upstream address and records it; clearing empties the set again. -/
theorem proxy_no_reissue_and_clear_resets_witness :
    (⟨"1.2.3.4", 80, none, none, ProxyTier.high, "http"⟩ : Proxy).address ∉
      getUsed ([] : PState) ("t1") ∧
    (⟨"1.2.3.4", 80, none, none, ProxyTier.high, "http"⟩ : Proxy).address ∈
      getUsed [(("t1" : String), ["1.2.3.4"])] ("t1") :=
  proxy_no_reissue_and_clear_resets.1 [] .high ("t1")
    (some ⟨"1.2.3.4", 80, none⟩) none
    ⟨"1.2.3.4", 80, none, none, .high, "http"⟩
    [(("t1" : String), ["1.2.3.4"])] (by decide)

end NeredeYesem
